import Mathlib

/-!
Shallow embedding of the TinyG2 persistence module (persistence.cpp, ARM /
file-based backend): the rotating-generation-file value store with a batched
write cache, CRC-validated files and a rate-limited flush scheduler.

Modelling conventions:
* A value slot is a 32-bit bit pattern, represented as a `Nat` (< 2^32 in any
  reachable state; the IEEE-754 predicates below read the bits directly).
* Files are modelled at slot (4-byte) granularity: a file is a `List Val` of
  32-bit words; the last word of a non-empty file is read as its CRC trailer,
  exactly as the code treats the final `CRC_LEN = 4` bytes.
* The FatFS driver is an external collaborator; it is modelled as a partial
  map from the three rotation slots to file contents.  `filenames[3]` — the
  out-of-bounds array read performed when `active_file_index` finds no file —
  is modelled as a name that never exists on disk, so opening it fails.
* The CRC32 primitive is an external collaborator; it is modelled as an
  arbitrary fold step `crcS : Nat → Val → Nat` (crc32 is a left fold over the
  buffer bytes; at slot granularity one fold step per word).
* `uint32_t filecrc = NAN;` reads an uninitialized-flavoured value; it is
  modelled as an arbitrary constant `nanCast`.
* `IO_BUFFER_SIZE / NVM_VALUE_LEN` (the window size in slots) comes from a
  header that is not part of the sources; it is the parameter `step`.
* `f_read`'s byte count is what the driver chooses to deliver; the parameter
  `sup` caps the slots supplied at each window (the honest driver supplies
  everything requested).  The code ignores `f_read`'s status, so only the
  delivered count matters.
-/

/-- One 4-byte value slot: a 32-bit bit pattern. -/
abbrev Val := Nat

/-- IEEE-754 single: exponent field all ones, non-zero mantissa. -/
def isNaN32 (v : Val) : Bool := (v / 2 ^ 23) % 256 == 255 && v % 2 ^ 23 != 0

/-- IEEE-754 single: exponent field all ones, zero mantissa. -/
def isInf32 (v : Val) : Bool := (v / 2 ^ 23) % 256 == 255 && v % 2 ^ 23 == 0

/-- IEEE-754 single: +0.0 or -0.0. -/
def isZero32 (v : Val) : Bool := v == 0 || v == 2 ^ 31

/-- The C `!=` on two floats given by their bit patterns: true if either is
NaN; false on +0.0 vs -0.0; otherwise bitwise difference. -/
def floatNe (a b : Val) : Bool :=
  isNaN32 a || isNaN32 b || (!(isZero32 a && isZero32 b) && a != b)

/-- The `stat_t` return codes used by this module. -/
inductive Stat where
  | STAT_OK
  | STAT_NOOP
  | STAT_PERSISTENCE_ERROR
  | STAT_FILE_NOT_OPEN
deriving DecidableEq, Repr

open Stat

/-- A persistence file at slot granularity; for a well-formed generation the
last element is the CRC trailer and `dropLast` is the value content. -/
abbrev PFile := List Val

/-- The on-disk state: the three rotation slots `persist/persist{0,1,2}.bin`.
`PERSISTENCE_FILENAME_CNT = 3`. -/
structure Fs where
  f0 : Option PFile
  f1 : Option PFile
  f2 : Option PFile
deriving DecidableEq, Repr

/-- Model of the `f_stat`/`f_open` target by slot number; any index ≥ 3 (the out-of-bounds
`filenames[3]`) names a file that never exists. -/
def Fs.get : Fs → Nat → Option PFile
  | s, 0 => s.f0
  | s, 1 => s.f1
  | s, 2 => s.f2
  | _, _ => none

/-- Create/overwrite (`some`) or `f_unlink` (`none`) a slot. -/
def Fs.set : Fs → Nat → Option PFile → Fs
  | s, 0, v => { s with f0 := v }
  | s, 1, v => { s with f1 := v }
  | s, 2, v => { s with f2 := v }
  | s, _, _ => s

/-- The `nvmSingleton_t` fields used by the ARM backend. `openSlot`/`pos`
model the `FIL nvm.file` handle (which slot is open, `f_tell` in slots). -/
structure Nvm where
  file_index : Nat
  openSlot : Option Nat
  pos : Nat
  write_cache : List (Nat × Val)
  write_failures : Nat
  last_write_systick : Nat
deriving DecidableEq, Repr

/-- Whole-system state: disk, singleton, the external machine-motion state
`cm.cycle_state` (CYCLE_OFF = 0), and the exception-report channel
(`rpt_exception` log). -/
structure St where
  fs : Fs
  nvm : Nvm
  cycle : Nat
  exceptions : List Stat
deriving DecidableEq, Repr

/-- Model of `std::map<index_t,float>::insert`: keeps the list sorted by key and does
NOT replace the mapped value when the key is already present. -/
def mapInsert (k : Nat) (v : Val) : List (Nat × Val) → List (Nat × Val)
  | [] => [(k, v)]
  | (k', v') :: t =>
    if k < k' then (k, v) :: (k', v') :: t
    else if k == k' then (k', v') :: t
    else (k', v') :: mapInsert k v t

/-- Largest key of a cache (0 when empty); used only to compute a provably
sufficient window-loop fuel. -/
def maxKey (l : List (Nat × Val)) : Nat := l.foldr (fun e m => max e.1 m) 0

section Persistence

variable (crcS : Nat → Val → Nat) (nanCast : Nat) (step : Nat)

/-- The `while (!f_eof)` loop of `check_persistence_file_crc`: reads chunks of
`step` slots, folds the running CRC, and on the final chunk excludes the last
slot from the fold and extracts it as the stored CRC.  Returns
(computed crc, stored crc). -/
def crcLoop : Nat → Nat → Nat → List Val → Nat × Nat
  | 0, crc, filecrc, _ => (crc, filecrc)
  | fuel + 1, crc, filecrc, rest =>
    if rest.isEmpty then (crc, filecrc)
    else
      let chunk := rest.take step
      let rest' := rest.drop step
      if rest'.isEmpty then
        (chunk.dropLast.foldl crcS crc, chunk.getLastD 0)
      else
        crcLoop fuel (chunk.foldl crcS crc) filecrc rest'

/-- Model of `check_persistence_file_crc()` on the open file `f`. -/
def check_persistence_file_crc (f : PFile) : Stat :=
  let r := crcLoop crcS step (f.length + 1) 0 nanCast f
  if r.1 == r.2 then STAT_OK else STAT_PERSISTENCE_ERROR

/-- The scan loop of `active_file_index()` starting at slot `i`. -/
def afiFrom (fs : Fs) : Nat → Nat → Nat
  | 0, i => i
  | fuel + 1, i =>
    if i < 3 then
      if (fs.get i).isSome then
        let next := (i + 1) % 3
        if next > i && (fs.get next).isSome then next else i
      else afiFrom fs fuel (i + 1)
    else i

/-- Model of `active_file_index()`: first present slot (preferring its successor when
that is also present and numerically ahead); `3` — one past the last slot —
when nothing is found, exactly as the loop variable leaves the `for`. -/
def active_file_index (fs : Fs) : Nat := afiFrom fs 4 0

/-- Model of `prepare_persistence_file()`: early-return when a handle is already open
and valid; else mount (modelled as succeeding), mkdir, resolve the active
slot, open it read-only (failing when it does not exist, which leaves
`file_index` untouched), validate the CRC — deleting the file, resetting the
slot to 0 and erroring on mismatch — and finally unlink the previous slot. -/
def prepare_persistence_file (s : St) : Stat × St :=
  match s.nvm.openSlot with
  | some _ => (STAT_OK, s)
  | none =>
    let index := active_file_index s.fs
    match s.fs.get index with
    | none => (STAT_PERSISTENCE_ERROR, s)
    | some f =>
      let s1 := { s with nvm :=
        { s.nvm with openSlot := some index, pos := 0, file_index := index } }
      if check_persistence_file_crc crcS nanCast step f ≠ STAT_OK then
        (STAT_PERSISTENCE_ERROR,
          { s1 with nvm := { s1.nvm with openSlot := none, file_index := 0 },
                    fs := s1.fs.set index none })
      else
        (STAT_OK, { s1 with fs := s1.fs.set ((s1.nvm.file_index + 3 - 1) % 3) none })

/-- Model of `read_persistent_value()` (ARM): prepare, `f_lseek(index*4)` (clamped to
the file size in read mode, as FatFS does), read one slot; a short read is a
persistence error. -/
def read_persistent_value (s : St) (i : Nat) : Stat × Option Val × St :=
  let pr := prepare_persistence_file crcS nanCast step s
  if pr.1 ≠ STAT_OK then (pr.1, none, pr.2)
  else
    let s1 := pr.2
    match s1.nvm.openSlot with
    | none => (STAT_PERSISTENCE_ERROR, none, s1)
    | some slot =>
      let f := (s1.fs.get slot).getD []
      let p := min i f.length
      match f[p]? with
      | some v => (STAT_OK, some v, { s1 with nvm := { s1.nvm with pos := p + 1 } })
      | none => (STAT_PERSISTENCE_ERROR, none, { s1 with nvm := { s1.nvm with pos := p } })

/-- Model of `write_persistent_value()` (ARM): save the intended value, read the
stored one (on success the read overwrites `nv->value`), and when the read
failed or the post-read `nv->value` is NaN/Inf or differs (C float `!=`)
from the intended value, stage `(index, intended)` in the write cache via
`std::map::insert`.  Always restores the intended value and returns OK.
There is no `cm.cycle_state` gate in this (ARM) variant. -/
def write_persistent_value (s : St) (i : Nat) (v : Val) : Stat × Val × St :=
  let rr := read_persistent_value crcS nanCast step s i
  let nvval := rr.2.1.getD v
  let need := rr.1 != STAT_OK || isNaN32 nvval || isInf32 nvval || floatNe nvval v
  let s2 := rr.2.2
  let s3 :=
    if need then
      { s2 with nvm := { s2.nvm with write_cache := mapInsert i v s2.nvm.write_cache } }
    else s2
  (STAT_OK, v, s3)

end Persistence

/-- Overlay the in-window cache entries onto the buffer: `memcpy` of each
value at buffer offset `(key - cnt)`.  An offset at or past `ioCnt` lands in
the stale region of `nvm.io_buffer` that is never written to the output file,
so it has no observable effect (`List.set` past the end is the identity). -/
def overlayChunk (cnt ioCnt : Nat) (chunk : List Val) (entries : List (Nat × Val)) : List Val :=
  entries.foldl (fun c e => if e.1 - cnt < ioCnt then c.set (e.1 - cnt) e.2 else c) chunk

/-- The window loop of `write_persistent_values()`.  `bs` is the baseline
content (the open input file minus its CRC trailer), `fileOpen` whether the
input file is open, `sup` how many slots the driver delivers per window (the
read status is ignored by the code, only the delivered count matters), `pos`
the input-file position, `cnt` the window cursor, `out` the slots written so
far to the output file.  Loop condition: cache entries remain, or the open
input file has unread bytes beyond its trailer (`f_remain > CRC_LEN`).  Per
window: read `min(step, remaining-content)` slots (all of `step` when no
input file is open), zero-fill what the driver did not supply, overlay and
consume the cache entries with keys in `[cnt, cnt+step)`, write the buffer
prefix of length `ioCnt`, fold it into the CRC.  Fuel-indexed; `none` models
a loop that never exits. -/
def flushLoop (crcS : Nat → Val → Nat) (step : Nat) (sup : Nat → Nat)
    (bs : List Val) (fileOpen : Bool) :
    Nat → List (Nat × Val) → Nat → Nat → Nat → List Val →
    Option (List Val × Nat × Nat)
  | 0, _, _, _, _, _ => none
  | fuel + 1, cache, pos, cnt, crc, out =>
    let remainContent := if fileOpen then bs.length - pos else 0
    if cache.isEmpty && remainContent == 0 then some (out, crc, pos)
    else
      let ioCnt := if fileOpen then min step remainContent else step
      let bw := min ioCnt (sup cnt)
      let chunk := (bs.drop pos).take bw ++ List.replicate (ioCnt - bw) 0
      let entries := cache.filter fun e => decide (cnt ≤ e.1) && decide (e.1 < cnt + step)
      let cache' := cache.filter fun e => !(decide (cnt ≤ e.1) && decide (e.1 < cnt + step))
      let chunk' := overlayChunk cnt ioCnt chunk entries
      flushLoop crcS step sup bs fileOpen fuel cache' (pos + bw) (cnt + step)
        (chunk'.foldl crcS crc) (out ++ chunk')

/-- Opening with `FA_WRITE | FA_OPEN_ALWAYS` then sequential writes from offset 0: the new
stream overwrites the prefix of whatever was in the slot, without truncating
a longer leftover tail. -/
def writeOver (old new : List Val) : List Val := new ++ old.drop new.length

/-- Model of `write_persistent_values()` (ARM): refuse with the Busy report while the
machine is in motion; best-effort prepare of the baseline (seek 0 on
success); open the next rotation slot for writing; run the window loop on a
snapshot of the write cache; append the CRC; on success close and unlink the
baseline file and reset `file_index` to 0 (when a baseline was open). -/
def write_persistent_values (crcS : Nat → Val → Nat) (nanCast step : Nat)
    (sup : Nat → Nat) (s : St) : Stat × St :=
  if s.cycle ≠ 0 then
    (STAT_FILE_NOT_OPEN, { s with exceptions := s.exceptions ++ [STAT_FILE_NOT_OPEN] })
  else
    let pr := prepare_persistence_file crcS nanCast step s
    let s1 := if pr.1 = STAT_OK then { pr.2 with nvm := { pr.2.nvm with pos := 0 } } else pr.2
    let nextIdx := (s1.nvm.file_index + 1) % 3
    let existing := (s1.fs.get nextIdx).getD []
    let fileOpen := s1.nvm.openSlot.isSome
    let bs := match s1.nvm.openSlot with
      | some sl => ((s1.fs.get sl).getD []).dropLast
      | none => []
    let fuel := bs.length + maxKey s1.nvm.write_cache + 2
    match flushLoop crcS step sup bs fileOpen fuel s1.nvm.write_cache 0 0 0 [] with
    | none => (STAT_PERSISTENCE_ERROR, s1)
    | some (outStream, crc, _) =>
      let s2 := { s1 with
        fs := s1.fs.set nextIdx (some (writeOver existing (outStream ++ [crc]))) }
      match s2.nvm.openSlot with
      | none => (STAT_OK, s2)
      | some _ =>
        match s2.fs.get s2.nvm.file_index with
        | none => (STAT_PERSISTENCE_ERROR, { s2 with nvm := { s2.nvm with openSlot := none } })
        | some _ =>
          (STAT_OK,
            { s2 with fs := s2.fs.set s2.nvm.file_index none,
                      nvm := { s2.nvm with openSlot := none, file_index := 0 } })

/-- Model of `write_persistent_values_callback()`: no-op on an empty cache; no-op
under the rate limit (`MINW` models `MIN_WRITE_INTERVAL`); otherwise run the
flush — on success clear the cache and the failure counter, on failure unlink
the possibly half-written next-slot file, bump the failure counter and, at
the budget (`MAXW` models `MAX_WRITE_FAILURES`), drop the cache and reset the
counter.  Always stamps `last_write_systick` after an attempt. -/
def write_persistent_values_callback (crcS : Nat → Val → Nat) (nanCast step : Nat)
    (sup : Nat → Nat) (MINW MAXW now : Nat) (s : St) : Stat × St :=
  if s.nvm.write_cache.length ≠ 0 then
    if now - s.nvm.last_write_systick < MINW then (STAT_NOOP, s)
    else
      let fr := write_persistent_values crcS nanCast step sup s
      let s' :=
        if fr.1 = STAT_OK then
          { fr.2 with nvm := { fr.2.nvm with write_cache := [], write_failures := 0 } }
        else
          let s2 := { fr.2 with fs := fr.2.fs.set ((fr.2.nvm.file_index + 1) % 3) none }
          if s2.nvm.write_failures + 1 ≥ MAXW then
            { s2 with nvm := { s2.nvm with write_cache := [], write_failures := 0 } }
          else
            { s2 with nvm := { s2.nvm with write_failures := s2.nvm.write_failures + 1 } }
      (STAT_OK, { s' with nvm := { s'.nvm with last_write_systick := now } })
  else (STAT_NOOP, s)

/-! Concrete instances used by witnesses and counterexamples. -/

/-- A concrete stand-in for the external crc32 fold step. -/
def demoCrc : Nat → Val → Nat := fun c v => c + v

/-- A well-formed generation file: content followed by its CRC trailer. -/
def mkFile (crcS : Nat → Val → Nat) (bs : List Val) : PFile := bs ++ [bs.foldl crcS 0]

/-- A quiescent store: one valid generation at slot 0 holding `bs`, nothing
open, empty cache, machine idle. -/
def initStore (crcS : Nat → Val → Nat) (bs : List Val) : St :=
  { fs := { f0 := some (mkFile crcS bs), f1 := none, f2 := none },
    nvm := { file_index := 0, openSlot := none, pos := 0, write_cache := [],
             write_failures := 0, last_write_systick := 0 },
    cycle := 0, exceptions := [] }

/-- Baseline content for the windowed-merge scenario: 100 slots. -/
def baseline100 : List Val := (List.range 100).map (fun k => k + 1000)

/-- The windowed-merge scenario of the spec: baseline at indices 0..99, cache
entries for index 5 and index 150 pending. -/
def mergeState : St :=
  { initStore demoCrc baseline100 with
    nvm := { file_index := 0, openSlot := none, pos := 0,
             write_cache := [(5, 55), (150, 155)], write_failures := 0,
             last_write_systick := 0 } }

/-- A store with a 3-slot baseline and one pending entry, used to exercise an
ignored short `f_read` during the flush. -/
def shortReadState : St :=
  { initStore demoCrc [10, 20, 30] with
    nvm := { file_index := 0, openSlot := none, pos := 0,
             write_cache := [(1, 99)], write_failures := 0, last_write_systick := 0 } }

/-- A fault-injecting driver: the first window's `f_read` delivers nothing,
later reads deliver everything requested. -/
def shortFirstRead (step : Nat) : Nat → Nat := fun cnt => if cnt == 0 then 0 else step

/-- An empty disk with the machine in motion (cycle state ≠ CYCLE_OFF) and a
pending cache entry. -/
def busyState : St :=
  { fs := { f0 := none, f1 := none, f2 := none },
    nvm := { file_index := 0, openSlot := none, pos := 0, write_cache := [(0, 1)],
             write_failures := 0, last_write_systick := 0 },
    cycle := 1, exceptions := [] }

/-- A generation file with a trailer that does not match its content CRC. -/
def corruptFile : PFile := [10, 20, 999]

/-- A store whose only generation file is corrupt. -/
def corruptState : St :=
  { busyState with
    fs := { f0 := some corruptFile, f1 := none, f2 := none },
    nvm := { busyState.nvm with write_cache := [] },
    cycle := 0 }

/-! General helper lemmas. -/

theorem set_split_lt {l : List Val} {n m : Nat} {a : Val} (h : n < m) :
    l.set n a = (l.take m).set n a ++ l.drop m := by
  conv_lhs => rw [← List.take_append_drop m (l.set n a)]
  rw [List.set_take, List.drop_set, if_pos h]

theorem set_split_ge {l : List Val} {n m : Nat} {a : Val} (h : m ≤ n) :
    l.set n a = l.take m ++ (l.drop m).set (n - m) a := by
  conv_lhs => rw [← List.take_append_drop m (l.set n a)]
  rw [List.set_take, List.drop_set, if_neg (by omega)]
  congr 1
  apply List.set_eq_of_length_le
  rw [List.length_take]
  omega

theorem crcLoop_spec (crcS : Nat → Val → Nat) (step : Nat) (hstep : 1 ≤ step) :
    ∀ (fuel : Nat) (l : List Val) (crc fc t : Nat), l.length + 1 ≤ fuel →
      crcLoop crcS step fuel crc fc (l ++ [t]) = (l.foldl crcS crc, t) := by
  intro fuel
  induction fuel with
  | zero => intro l crc fc t h; omega
  | succ fuel ih =>
    intro l crc fc t h
    by_cases hc : l.length + 1 ≤ step
    · have hdrop : (l ++ [t]).drop step = [] :=
        List.drop_eq_nil_of_le (by simp; omega)
      have htake : (l ++ [t]).take step = l ++ [t] :=
        List.take_of_length_le (by simp; omega)
      simp [crcLoop, htake, hdrop, List.dropLast_concat, List.getLastD_concat]
    · have hsl : step ≤ l.length := by omega
      have hdrop : (l ++ [t]).drop step = l.drop step ++ [t] :=
        List.drop_append_of_le_length hsl
      have htake : (l ++ [t]).take step = l.take step :=
        List.take_append_of_le_length hsl
      have hne1 : (l ++ [t]).isEmpty = false := by simp
      have hne2 : (l.drop step ++ [t]).isEmpty = false := by simp
      have hrec := ih (l.drop step) ((l.take step).foldl crcS crc) fc t
        (by rw [List.length_drop]; omega)
      simp only [crcLoop, htake, hdrop, hne1, hne2, Bool.false_eq_true,
        if_false]
      rw [hrec, ← List.foldl_append, List.take_append_drop]

theorem check_crc_concat (crcS : Nat → Val → Nat) (nanCast step : Nat)
    (hstep : 1 ≤ step) (l : List Val) (t : Nat) :
    check_persistence_file_crc crcS nanCast step (l ++ [t]) =
      if l.foldl crcS 0 = t then STAT_OK else STAT_PERSISTENCE_ERROR := by
  unfold check_persistence_file_crc
  rw [crcLoop_spec crcS step hstep _ l 0 nanCast t (by simp)]
  simp only [beq_iff_eq]

theorem check_crc_mkFile (crcS : Nat → Val → Nat) (nanCast step : Nat)
    (hstep : 1 ≤ step) (bs : List Val) :
    check_persistence_file_crc crcS nanCast step (mkFile crcS bs) = STAT_OK := by
  rw [mkFile, check_crc_concat crcS nanCast step hstep, if_pos rfl]

theorem flushLoop_nil (crcS : Nat → Val → Nat) (step : Nat) (hstep : 1 ≤ step)
    (bs : List Val) :
    ∀ (fuel pos cnt crc : Nat) (out : List Val), pos ≤ bs.length →
      bs.length - pos + 1 ≤ fuel →
      flushLoop crcS step (fun _ => step) bs true fuel [] pos cnt crc out =
        some (out ++ bs.drop pos, (bs.drop pos).foldl crcS crc, bs.length) := by
  intro fuel
  induction fuel with
  | zero => intro pos cnt crc out h1 h2; omega
  | succ fuel ih =>
    intro pos cnt crc out h1 h2
    by_cases hp : pos = bs.length
    · have hdrop : bs.drop pos = [] := List.drop_eq_nil_of_le (by omega)
      simp [flushLoop, hp, hdrop]
    · have hlt : pos < bs.length := by omega
      have hcond : (bs.length - pos == 0) = false := by
        rw [beq_eq_false_iff_ne]; omega
      have hio1 : 1 ≤ min step (bs.length - pos) := by
        simp only [le_min_iff]; omega
      have hio2 : min (min step (bs.length - pos)) step = min step (bs.length - pos) := by
        simp only [min_eq_left_iff, min_le_iff]; omega
      have hrec := ih (pos + min step (bs.length - pos)) (cnt + step)
        (((bs.drop pos).take (min step (bs.length - pos))).foldl crcS crc)
        (out ++ (bs.drop pos).take (min step (bs.length - pos)))
        (by omega) (by omega)
      simp only [flushLoop, List.isEmpty_nil, Bool.true_and, if_true, hcond,
        Bool.false_eq_true, if_false, List.filter_nil, overlayChunk,
        List.foldl_nil, hio2, Nat.sub_self, List.replicate_zero,
        List.append_nil] at hrec ⊢
      rw [hrec]
      have hsplit : (bs.drop pos).take (min step (bs.length - pos)) ++
          bs.drop (pos + min step (bs.length - pos)) = bs.drop pos := by
        rw [← List.drop_drop]
        exact List.take_append_drop _ _
      rw [List.append_assoc, hsplit, ← List.foldl_append, hsplit]

theorem flushLoop_single (crcS : Nat → Val → Nat) (step : Nat) (hstep : 1 ≤ step)
    (bs : List Val) (i : Nat) (v : Val) (hi : i < bs.length) :
    ∀ (fuel pos crc : Nat) (out : List Val), pos ≤ i →
      bs.length - pos + 1 ≤ fuel →
      flushLoop crcS step (fun _ => step) bs true fuel [(i, v)] pos pos crc out =
        some (out ++ (bs.drop pos).set (i - pos) v,
          ((bs.drop pos).set (i - pos) v).foldl crcS crc, bs.length) := by
  intro fuel
  induction fuel with
  | zero => intro pos crc out h1 h2; omega
  | succ fuel ih =>
    intro pos crc out h1 h2
    have hlt : pos < bs.length := by omega
    have hcond : ([(i, v)].isEmpty && (bs.length - pos == 0)) = false := by
      simp [List.isEmpty_cons]
    have hio1 : 1 ≤ min step (bs.length - pos) := by
      simp only [le_min_iff]; omega
    have hio2 : min (min step (bs.length - pos)) step = min step (bs.length - pos) := by
      simp only [min_eq_left_iff, min_le_iff]; omega
    by_cases hwin : i < pos + step
    · -- the single entry lands in this window and is consumed
      have hfilt1 : [(i, v)].filter
          (fun e => decide (pos ≤ e.1) && decide (e.1 < pos + step)) = [(i, v)] := by
        simp [List.filter, h1, hwin]
      have hfilt2 : [(i, v)].filter
          (fun e => !(decide (pos ≤ e.1) && decide (e.1 < pos + step))) = [] := by
        simp [List.filter, h1, hwin]
      have hinio : i - pos < min step (bs.length - pos) := by omega
      have hrec := flushLoop_nil crcS step hstep bs fuel
        (pos + min step (bs.length - pos)) (pos + step)
        ((((bs.drop pos).take (min step (bs.length - pos))).set (i - pos) v).foldl crcS crc)
        (out ++ ((bs.drop pos).take (min step (bs.length - pos))).set (i - pos) v)
        (by omega) (by omega)
      simp only [flushLoop, hcond, Bool.false_eq_true, if_false, if_true,
        hfilt1, hfilt2, overlayChunk, List.foldl_cons, List.foldl_nil,
        hio2, Nat.sub_self, List.replicate_zero, List.append_nil,
        hinio, if_pos, List.set_take] at hrec ⊢
      rw [hrec]
      have hsplit : ((bs.drop pos).take (min step (bs.length - pos))).set (i - pos) v ++
          bs.drop (pos + min step (bs.length - pos)) =
          (bs.drop pos).set (i - pos) v := by
        rw [← List.set_take]
        have : bs.drop (pos + min step (bs.length - pos)) =
            ((bs.drop pos).set (i - pos) v).drop (min step (bs.length - pos)) := by
          rw [List.drop_set, if_pos hinio, List.drop_drop]
        rw [this]
        exact List.take_append_drop _ _
      rw [List.append_assoc, hsplit, ← List.foldl_append, hsplit]
    · -- the entry lies beyond this window: a full window is copied unchanged
      have hstep2 : pos + step ≤ i := by omega
      have hioeq : min step (bs.length - pos) = step := by omega
      have hfilt1 : [(i, v)].filter
          (fun e => decide (pos ≤ e.1) && decide (e.1 < pos + step)) = [] := by
        simp [List.filter, hwin]
      have hfilt2 : [(i, v)].filter
          (fun e => !(decide (pos ≤ e.1) && decide (e.1 < pos + step))) = [(i, v)] := by
        simp [List.filter, hwin]
      have hrec := ih (pos + step)
        (((bs.drop pos).take step).foldl crcS crc)
        (out ++ (bs.drop pos).take step) (by omega) (by omega)
      simp only [flushLoop, hcond, Bool.false_eq_true, if_false, if_true,
        hfilt1, hfilt2, overlayChunk, List.foldl_nil, hioeq, min_self,
        Nat.sub_self, List.replicate_zero, List.append_nil] at hrec ⊢
      rw [hrec]
      have hset : (bs.drop pos).set (i - pos) v =
          (bs.drop pos).take step ++ ((bs.drop (pos + step)).set (i - (pos + step)) v) := by
        rw [set_split_ge (by omega : step ≤ i - pos), List.drop_drop]
        congr 2
        omega
      rw [List.append_assoc, ← hset, ← List.foldl_append, ← hset]

theorem getElem?_of_getD (bs : List Val) (i : Nat) (hi : i < bs.length) :
    bs[i]? = some (bs.getD i 0) := by
  rw [List.getD_eq_getElem?_getD, List.getElem?_eq_getElem hi]
  rfl

theorem prepare_open (crcS : Nat → Val → Nat) (nanCast step : Nat) (s : St)
    (sl : Nat) (h : s.nvm.openSlot = some sl) :
    prepare_persistence_file crcS nanCast step s = (STAT_OK, s) := by
  unfold prepare_persistence_file
  rw [h]

theorem prepare_baseline0 (crcS : Nat → Val → Nat) (nanCast step : Nat)
    (hstep : 1 ≤ step) (bs : List Val) (c : List (Nat × Val))
    (wf lt cy fi po : Nat) (ex : List Stat) :
    prepare_persistence_file crcS nanCast step
      { fs := { f0 := some (mkFile crcS bs), f1 := none, f2 := none },
        nvm := { file_index := fi, openSlot := none, pos := po, write_cache := c,
                 write_failures := wf, last_write_systick := lt },
        cycle := cy, exceptions := ex } =
      (STAT_OK,
        { fs := { f0 := some (mkFile crcS bs), f1 := none, f2 := none },
          nvm := { file_index := 0, openSlot := some 0, pos := 0, write_cache := c,
                   write_failures := wf, last_write_systick := lt },
          cycle := cy, exceptions := ex }) := by
  unfold prepare_persistence_file
  simp [active_file_index, afiFrom, Fs.get, Fs.set,
    check_crc_mkFile crcS nanCast step hstep bs]

theorem prepare_baseline1 (crcS : Nat → Val → Nat) (nanCast step : Nat)
    (hstep : 1 ≤ step) (l : List Val) (c : List (Nat × Val))
    (wf lt cy fi po : Nat) (ex : List Stat) :
    prepare_persistence_file crcS nanCast step
      { fs := { f0 := none, f1 := some (mkFile crcS l), f2 := none },
        nvm := { file_index := fi, openSlot := none, pos := po, write_cache := c,
                 write_failures := wf, last_write_systick := lt },
        cycle := cy, exceptions := ex } =
      (STAT_OK,
        { fs := { f0 := none, f1 := some (mkFile crcS l), f2 := none },
          nvm := { file_index := 1, openSlot := some 1, pos := 0, write_cache := c,
                   write_failures := wf, last_write_systick := lt },
          cycle := cy, exceptions := ex }) := by
  unfold prepare_persistence_file
  simp [active_file_index, afiFrom, Fs.get, Fs.set,
    check_crc_mkFile crcS nanCast step hstep l]

theorem read_open (crcS : Nat → Val → Nat) (nanCast step : Nat) (s : St)
    (sl i : Nat) (f : PFile) (hopen : s.nvm.openSlot = some sl)
    (hget : s.fs.get sl = some f) (hi : i < f.length) :
    read_persistent_value crcS nanCast step s i =
      (STAT_OK, some (f.getD i 0), { s with nvm := { s.nvm with pos := i + 1 } }) := by
  unfold read_persistent_value
  rw [prepare_open crcS nanCast step s sl hopen]
  simp only [ne_eq, not_true_eq_false, reduceIte, hopen, hget, Option.getD_some,
    min_eq_left (Nat.le_of_lt hi), getElem?_of_getD f i hi]

theorem write_initStore (crcS : Nat → Val → Nat) (nanCast step : Nat)
    (hstep : 1 ≤ step) (bs : List Val) (i : Nat) (v : Val) (hi : i < bs.length) :
    write_persistent_value crcS nanCast step (initStore crcS bs) i v =
      (STAT_OK, v,
        { fs := { f0 := some (mkFile crcS bs), f1 := none, f2 := none },
          nvm := { file_index := 0, openSlot := some 0, pos := i + 1,
                   write_cache :=
                     if isNaN32 (bs.getD i 0) || isInf32 (bs.getD i 0) ||
                        floatNe (bs.getD i 0) v then [(i, v)] else [],
                   write_failures := 0, last_write_systick := 0 },
          cycle := 0, exceptions := [] }) := by
  unfold write_persistent_value
  have hr := read_open crcS nanCast step
    { fs := { f0 := some (mkFile crcS bs), f1 := none, f2 := none },
      nvm := { file_index := 0, openSlot := some 0, pos := 0, write_cache := [],
               write_failures := 0, last_write_systick := 0 },
      cycle := 0, exceptions := [] } 0 i (mkFile crcS bs) rfl rfl
    (by simp [mkFile]; omega)
  have hfile : (mkFile crcS bs).getD i 0 = bs.getD i 0 := by
    rw [List.getD_eq_getElem?_getD, List.getD_eq_getElem?_getD, mkFile,
      List.getElem?_append, if_pos hi]
  have hread : read_persistent_value crcS nanCast step (initStore crcS bs) i =
      (STAT_OK, some (bs.getD i 0),
        { fs := { f0 := some (mkFile crcS bs), f1 := none, f2 := none },
          nvm := { file_index := 0, openSlot := some 0, pos := i + 1,
                   write_cache := [], write_failures := 0, last_write_systick := 0 },
          cycle := 0, exceptions := [] }) := by
    unfold read_persistent_value at hr ⊢
    rw [initStore, prepare_baseline0 crcS nanCast step hstep bs [] 0 0 0 0 0 []]
    rw [prepare_open crcS nanCast step _ 0 rfl] at hr
    rw [hfile] at hr
    simpa using hr
  rw [hread]
  simp only [mapInsert]
  simp
  split <;> rfl

theorem flush_open0_nil (crcS : Nat → Val → Nat) (nanCast step : Nat)
    (hstep : 1 ≤ step) (bs : List Val) (t0 : Nat) (wf lt po : Nat) (ex : List Stat) :
    write_persistent_values crcS nanCast step (fun _ => step)
      { fs := { f0 := some (bs ++ [t0]), f1 := none, f2 := none },
        nvm := { file_index := 0, openSlot := some 0, pos := po, write_cache := [],
                 write_failures := wf, last_write_systick := lt },
        cycle := 0, exceptions := ex } =
      (STAT_OK,
        { fs := { f0 := none, f1 := some (mkFile crcS bs), f2 := none },
          nvm := { file_index := 0, openSlot := none, pos := 0, write_cache := [],
                   write_failures := wf, last_write_systick := lt },
          cycle := 0, exceptions := ex }) := by
  unfold write_persistent_values
  have hloop := flushLoop_nil crcS step hstep bs (bs.length + 2) 0 0 0 []
    (Nat.zero_le _) (by omega)
  simp only [List.drop_zero, List.nil_append] at hloop
  rw [prepare_open crcS nanCast step _ 0 rfl]
  simp [maxKey, List.dropLast_concat, hloop, writeOver, Fs.get, Fs.set, mkFile]

theorem flush_open0_single (crcS : Nat → Val → Nat) (nanCast step : Nat)
    (hstep : 1 ≤ step) (bs : List Val) (t0 : Nat) (i : Nat) (v : Val)
    (hi : i < bs.length) (wf lt po : Nat) (ex : List Stat) :
    write_persistent_values crcS nanCast step (fun _ => step)
      { fs := { f0 := some (bs ++ [t0]), f1 := none, f2 := none },
        nvm := { file_index := 0, openSlot := some 0, pos := po, write_cache := [(i, v)],
                 write_failures := wf, last_write_systick := lt },
        cycle := 0, exceptions := ex } =
      (STAT_OK,
        { fs := { f0 := none, f1 := some (mkFile crcS (bs.set i v)), f2 := none },
          nvm := { file_index := 0, openSlot := none, pos := 0, write_cache := [(i, v)],
                   write_failures := wf, last_write_systick := lt },
          cycle := 0, exceptions := ex }) := by
  unfold write_persistent_values
  have hloop := flushLoop_single crcS step hstep bs i v hi (bs.length + i + 2)
    0 0 [] (Nat.zero_le _) (by omega)
  simp only [List.drop_zero, List.nil_append, Nat.sub_zero] at hloop
  rw [prepare_open crcS nanCast step _ 0 rfl]
  simp [maxKey, List.dropLast_concat, hloop, writeOver, Fs.get, Fs.set, mkFile]

theorem mkFile_getD (crcS : Nat → Val → Nat) (bs : List Val) (i : Nat)
    (hi : i < bs.length) : (mkFile crcS bs).getD i 0 = bs.getD i 0 := by
  rw [List.getD_eq_getElem?_getD, List.getD_eq_getElem?_getD, mkFile,
    List.getElem?_append, if_pos hi]

theorem mkFile_length (crcS : Nat → Val → Nat) (bs : List Val) :
    (mkFile crcS bs).length = bs.length + 1 := by
  simp [mkFile]

theorem read_slot1 (crcS : Nat → Val → Nat) (nanCast step : Nat)
    (hstep : 1 ≤ step) (l : List Val) (i : Nat) (hi : i < l.length)
    (c : List (Nat × Val)) (wf lt cy fi po : Nat) (ex : List Stat) :
    read_persistent_value crcS nanCast step
      { fs := { f0 := none, f1 := some (mkFile crcS l), f2 := none },
        nvm := { file_index := fi, openSlot := none, pos := po, write_cache := c,
                 write_failures := wf, last_write_systick := lt },
        cycle := cy, exceptions := ex } i =
      (STAT_OK, some (l.getD i 0),
        { fs := { f0 := none, f1 := some (mkFile crcS l), f2 := none },
          nvm := { file_index := 1, openSlot := some 1, pos := i + 1, write_cache := c,
                   write_failures := wf, last_write_systick := lt },
          cycle := cy, exceptions := ex }) := by
  have hlen : i < (mkFile crcS l).length := by rw [mkFile_length]; omega
  unfold read_persistent_value
  rw [prepare_baseline1 crcS nanCast step hstep l c wf lt cy fi po ex]
  simp only [ne_eq, not_true_eq_false, reduceIte, Fs.get, Option.getD_some,
    min_eq_left (Nat.le_of_lt hlen), getElem?_of_getD _ i hlen,
    mkFile_getD crcS l i hi]

theorem floatNe_of_isNaN (a b : Val) (h : isNaN32 a = true) : floatNe a b = true := by
  simp [floatNe, h]

theorem isZero_not_inf (a : Val) (h : isInf32 a = true) : isZero32 a = false := by
  cases hz : isZero32 a
  · rfl
  · exfalso
    have : a = 0 ∨ a = 2 ^ 31 := by simpa [isZero32] using hz
    rcases this with h0 | h31
    · rw [h0] at h; exact absurd h (by decide)
    · rw [h31] at h; exact absurd h (by decide)

theorem floatNe_false_cases (a b : Val) (h : floatNe a b = false) :
    isNaN32 a = false ∧ isNaN32 b = false ∧
      (a = b ∨ (isZero32 a = true ∧ isZero32 b = true)) := by
  unfold floatNe at h
  obtain ⟨h12, hrest⟩ := Bool.or_eq_false_iff.mp h
  obtain ⟨hna, hnb⟩ := Bool.or_eq_false_iff.mp h12
  refine ⟨hna, hnb, ?_⟩
  by_cases hab : a = b
  · exact Or.inl hab
  · right
    cases hz1 : isZero32 a <;> cases hz2 : isZero32 b
    · rw [hz1, hz2] at hrest; simp [bne_iff_ne, hab] at hrest
    · rw [hz1, hz2] at hrest; simp [bne_iff_ne, hab] at hrest
    · rw [hz1, hz2] at hrest; simp [bne_iff_ne, hab] at hrest
    · exact ⟨rfl, rfl⟩

theorem floatNe_self (v : Val) (h : isNaN32 v = false) : floatNe v v = false := by
  simp [floatNe, h]

/-- C1 (amended): starting from an idle store holding a valid baseline
generation `bs` with an empty write cache, for every index `i` within the
baseline extent and every finite value `v`: `write(i, v)` returns OK, the
subsequent batch flush returns OK, and `read(i)` then returns exactly `v`
whenever `v` differs as an IEEE-754 float from the stored value (in
particular whenever it differs bitwise, except for +0.0 vs -0.0); when the
stored value is already IEEE-equal to `v`, no cache entry is staged and
`read(i)` returns the stored bit pattern, which is IEEE-equal to `v`. -/
theorem write_flush_read_roundtrip (crcS : Nat → Val → Nat) (nanCast step : Nat)
    (hstep : 1 ≤ step) (bs : List Val) (i : Nat) (v : Val)
    (hi : i < bs.length) (hnan : isNaN32 v = false) (hinf : isInf32 v = false) :
    (write_persistent_value crcS nanCast step (initStore crcS bs) i v).1 = STAT_OK ∧
    (write_persistent_values crcS nanCast step (fun _ => step)
      (write_persistent_value crcS nanCast step (initStore crcS bs) i v).2.2).1 = STAT_OK ∧
    (read_persistent_value crcS nanCast step
      (write_persistent_values crcS nanCast step (fun _ => step)
        (write_persistent_value crcS nanCast step (initStore crcS bs) i v).2.2).2 i).1
      = STAT_OK ∧
    (read_persistent_value crcS nanCast step
      (write_persistent_values crcS nanCast step (fun _ => step)
        (write_persistent_value crcS nanCast step (initStore crcS bs) i v).2.2).2 i).2.1
      = some (if floatNe (bs.getD i 0) v then v else bs.getD i 0) ∧
    floatNe ((read_persistent_value crcS nanCast step
      (write_persistent_values crcS nanCast step (fun _ => step)
        (write_persistent_value crcS nanCast step (initStore crcS bs) i v).2.2).2 i).2.1.getD 0)
      v = false := by
  have hw := write_initStore crcS nanCast step hstep bs i v hi
  rw [hw]
  by_cases hneed :
      (isNaN32 (bs.getD i 0) || isInf32 (bs.getD i 0) || floatNe (bs.getD i 0) v) = true
  · -- a cache entry is staged and flushed
    have hfne : floatNe (bs.getD i 0) v = true := by
      cases hF : floatNe (bs.getD i 0) v
      · exfalso
        obtain ⟨hna, _, hcases⟩ := floatNe_false_cases _ _ hF
        rw [hna, hF, Bool.or_false, Bool.false_or] at hneed
        rcases hcases with heq | ⟨hz1, _⟩
        · rw [heq] at hneed; rw [hneed] at hinf; exact absurd hinf (by decide)
        · rw [isZero_not_inf _ hneed] at hz1; exact absurd hz1 (by decide)
      · rfl
    have hcache : (if (isNaN32 (bs.getD i 0) || isInf32 (bs.getD i 0) ||
        floatNe (bs.getD i 0) v) = true then [(i, v)]
        else ([] : List (Nat × Val))) = [(i, v)] := if_pos hneed
    rw [hcache]
    simp only [mkFile]
    rw [flush_open0_single crcS nanCast step hstep bs (bs.foldl crcS 0) i v hi 0 0 (i + 1) []]
    have hrd := read_slot1 crcS nanCast step hstep (bs.set i v) i
      (by rw [List.length_set]; omega) [(i, v)] 0 0 0 0 0 []
    have hgv : (bs.set i v).getD i 0 = v := by
      rw [List.getD_eq_getElem?_getD, List.getElem?_set_self hi]
      rfl
    simp only [hrd, hgv, hfne, if_true, Option.getD_some]
    simp [floatNe_self v hnan]
  · -- no cache entry: the baseline is rewritten unchanged
    have hfalse : (isNaN32 (bs.getD i 0) || isInf32 (bs.getD i 0) ||
        floatNe (bs.getD i 0) v) = false := by
      cases h2 : (isNaN32 (bs.getD i 0) || isInf32 (bs.getD i 0) ||
        floatNe (bs.getD i 0) v)
      · rfl
      · exact absurd h2 hneed
    obtain ⟨h12, hF⟩ := Bool.or_eq_false_iff.mp hfalse
    have hcache : (if (isNaN32 (bs.getD i 0) || isInf32 (bs.getD i 0) ||
        floatNe (bs.getD i 0) v) = true then [(i, v)]
        else ([] : List (Nat × Val))) = [] := if_neg hneed
    rw [hcache]
    simp only [mkFile]
    rw [flush_open0_nil crcS nanCast step hstep bs (bs.foldl crcS 0) 0 0 (i + 1) []]
    have hrd := read_slot1 crcS nanCast step hstep bs i hi [] 0 0 0 0 0 []
    simp only [hrd, hF, if_false, Option.getD_some]
    simp [hF]

theorem prepare_nvm_frame (crcS : Nat → Val → Nat) (nanCast step : Nat) (s : St) :
    (prepare_persistence_file crcS nanCast step s).2.nvm.write_cache =
      s.nvm.write_cache ∧
    (prepare_persistence_file crcS nanCast step s).2.nvm.write_failures =
      s.nvm.write_failures ∧
    (prepare_persistence_file crcS nanCast step s).2.nvm.last_write_systick =
      s.nvm.last_write_systick ∧
    (prepare_persistence_file crcS nanCast step s).2.cycle = s.cycle ∧
    (prepare_persistence_file crcS nanCast step s).2.exceptions = s.exceptions := by
  unfold prepare_persistence_file
  split
  · exact ⟨rfl, rfl, rfl, rfl, rfl⟩
  · dsimp only
    split
    · exact ⟨rfl, rfl, rfl, rfl, rfl⟩
    · split
      · exact ⟨rfl, rfl, rfl, rfl, rfl⟩
      · exact ⟨rfl, rfl, rfl, rfl, rfl⟩

theorem flush_nvm_frame (crcS : Nat → Val → Nat) (nanCast step : Nat)
    (sup : Nat → Nat) (s : St) :
    (write_persistent_values crcS nanCast step sup s).2.nvm.write_cache =
      s.nvm.write_cache ∧
    (write_persistent_values crcS nanCast step sup s).2.nvm.write_failures =
      s.nvm.write_failures := by
  obtain ⟨hc, hf, -, -, -⟩ := prepare_nvm_frame crcS nanCast step s
  unfold write_persistent_values
  split
  · exact ⟨rfl, rfl⟩
  · dsimp only
    repeat' split
    all_goals exact ⟨hc, hf⟩

theorem read_preserves_cache (crcS : Nat → Val → Nat) (nanCast step : Nat)
    (s : St) (i : Nat) :
    (read_persistent_value crcS nanCast step s i).2.2.nvm.write_cache =
      s.nvm.write_cache := by
  obtain ⟨hc, -, -, -, -⟩ := prepare_nvm_frame crcS nanCast step s
  unfold read_persistent_value
  dsimp only
  repeat' split
  all_goals exact hc

/-- C9: on the file-based backend `write_persistent_value` returns `STAT_OK`
for every value and every store state, always hands the caller back the
intended value, and when the underlying read of the current value fails it
stages a cache entry (via `std::map::insert`) instead of propagating the
error. -/
theorem write_persistent_value_always_ok (crcS : Nat → Val → Nat)
    (nanCast step : Nat) (s : St) (i : Nat) (v : Val) :
    (write_persistent_value crcS nanCast step s i v).1 = STAT_OK ∧
    (write_persistent_value crcS nanCast step s i v).2.1 = v ∧
    ((read_persistent_value crcS nanCast step s i).1 ≠ STAT_OK →
      (write_persistent_value crcS nanCast step s i v).2.2.nvm.write_cache =
        mapInsert i v s.nvm.write_cache) := by
  refine ⟨rfl, rfl, ?_⟩
  intro hr
  have hb : ((read_persistent_value crcS nanCast step s i).1 != STAT_OK) = true :=
    bne_iff_ne.mpr hr
  unfold write_persistent_value
  dsimp only
  rw [hb]
  simp only [Bool.true_or, if_true]
  exact congrArg (mapInsert i v) (read_preserves_cache crcS nanCast step s i)

/-- C7: a scheduled flush attempt (non-empty cache, rate-limit interval
elapsed) returns `STAT_OK` and stamps the attempt time; on flush success it
clears the cache and resets the failure counter; on flush failure it
increments the failure counter, except that on reaching the configured
maximum (`MAXW`, modelling `MAX_WRITE_FAILURES`) it drops the whole pending
cache and resets the counter to zero. -/
theorem callback_failure_budget (crcS : Nat → Val → Nat) (nanCast step : Nat)
    (sup : Nat → Nat) (MINW MAXW now : Nat) (s : St)
    (hcache : s.nvm.write_cache ≠ [])
    (htime : MINW ≤ now - s.nvm.last_write_systick) :
    (write_persistent_values_callback crcS nanCast step sup MINW MAXW now s).1 =
      STAT_OK ∧
    (write_persistent_values_callback crcS nanCast step sup MINW MAXW now
      s).2.nvm.last_write_systick = now ∧
    ((write_persistent_values crcS nanCast step sup s).1 = STAT_OK →
      (write_persistent_values_callback crcS nanCast step sup MINW MAXW now
        s).2.nvm.write_cache = [] ∧
      (write_persistent_values_callback crcS nanCast step sup MINW MAXW now
        s).2.nvm.write_failures = 0) ∧
    ((write_persistent_values crcS nanCast step sup s).1 ≠ STAT_OK →
      (s.nvm.write_failures + 1 ≥ MAXW →
        (write_persistent_values_callback crcS nanCast step sup MINW MAXW now
          s).2.nvm.write_cache = [] ∧
        (write_persistent_values_callback crcS nanCast step sup MINW MAXW now
          s).2.nvm.write_failures = 0) ∧
      (s.nvm.write_failures + 1 < MAXW →
        (write_persistent_values_callback crcS nanCast step sup MINW MAXW now
          s).2.nvm.write_cache = s.nvm.write_cache ∧
        (write_persistent_values_callback crcS nanCast step sup MINW MAXW now
          s).2.nvm.write_failures = s.nvm.write_failures + 1)) := by
  have hlen : s.nvm.write_cache.length ≠ 0 := by
    simpa [List.length_eq_zero] using hcache
  obtain ⟨hfc, hff⟩ := flush_nvm_frame crcS nanCast step sup s
  unfold write_persistent_values_callback
  rw [if_pos hlen, if_neg (by omega : ¬ now - s.nvm.last_write_systick < MINW)]
  dsimp only
  by_cases hr : (write_persistent_values crcS nanCast step sup s).1 = STAT_OK
  · rw [if_pos hr]
    exact ⟨rfl, rfl, fun _ => ⟨rfl, rfl⟩, fun hne => absurd hr hne⟩
  · rw [if_neg hr]
    by_cases hb : s.nvm.write_failures + 1 ≥ MAXW
    · have hcond : (write_persistent_values crcS nanCast step sup
          s).2.nvm.write_failures + 1 ≥ MAXW := by rw [hff]; exact hb
      rw [if_pos hcond]
      exact ⟨rfl, rfl, fun h => absurd h hr,
        fun _ => ⟨fun _ => ⟨rfl, rfl⟩, fun hlt => absurd hb (by omega)⟩⟩
    · have hcond : ¬ ((write_persistent_values crcS nanCast step sup
          s).2.nvm.write_failures + 1 ≥ MAXW) := by rw [hff]; omega
      rw [if_neg hcond]
      exact ⟨rfl, rfl, fun h => absurd h hr,
        fun _ => ⟨fun hge => absurd hge hb,
          fun _ => ⟨hfc, congrArg (fun x => x + 1) hff⟩⟩⟩

/-- C8: the batch flush engine operates on a snapshot of the write cache and
never mutates the live cache, whatever its outcome; and after a failed flush
whose failure count stays below the budget, the scheduler leaves the pending
cache exactly as it was before the attempt. -/
theorem flush_cache_frame (crcS : Nat → Val → Nat) (nanCast step : Nat)
    (sup : Nat → Nat) (MINW MAXW now : Nat) (s : St)
    (hfail : (write_persistent_values crcS nanCast step sup s).1 ≠ STAT_OK)
    (hbudget : s.nvm.write_failures + 1 < MAXW) :
    (∀ s' : St, (write_persistent_values crcS nanCast step sup
      s').2.nvm.write_cache = s'.nvm.write_cache) ∧
    (write_persistent_values_callback crcS nanCast step sup MINW MAXW now
      s).2.nvm.write_cache = s.nvm.write_cache := by
  refine ⟨fun s' => (flush_nvm_frame crcS nanCast step sup s').1, ?_⟩
  unfold write_persistent_values_callback
  by_cases hlen : s.nvm.write_cache.length ≠ 0
  · rw [if_pos hlen]
    by_cases ht : now - s.nvm.last_write_systick < MINW
    · rw [if_pos ht]
    · rw [if_neg ht]
      dsimp only
      rw [if_neg hfail]
      have hff := (flush_nvm_frame crcS nanCast step sup s).2
      have hcond : ¬ ((write_persistent_values crcS nanCast step sup
          s).2.nvm.write_failures + 1 ≥ MAXW) := by rw [hff]; omega
      rw [if_neg hcond]
      exact (flush_nvm_frame crcS nanCast step sup s).1
  · rw [if_neg hlen]

/-- C6: whenever the generation file the preparer opens (the one resolved as
active) has a trailing checksum that differs from the CRC recomputed over its
content, `prepare_persistence_file` closes the file, deletes it, resets the
tracked slot to 0, and returns a persistence error. -/
theorem prepare_rejects_corrupt_file (crcS : Nat → Val → Nat) (nanCast step : Nat)
    (hstep : 1 ≤ step) (s : St) (l : List Val) (t : Nat)
    (hclosed : s.nvm.openSlot = none)
    (hget : s.fs.get (active_file_index s.fs) = some (l ++ [t]))
    (hcrc : l.foldl crcS 0 ≠ t) :
    prepare_persistence_file crcS nanCast step s =
      (STAT_PERSISTENCE_ERROR,
        { s with fs := s.fs.set (active_file_index s.fs) none,
                 nvm := { s.nvm with openSlot := none, file_index := 0, pos := 0 } }) := by
  unfold prepare_persistence_file
  rw [hclosed]
  dsimp only
  rw [hget]
  dsimp only
  rw [check_crc_concat crcS nanCast step hstep l t, if_neg hcrc]
  simp

/-- C4 (amended): while the machine is in motion (cycle state not CYCLE_OFF)
the batch flush is refused entirely: it returns the Busy report
(`rpt_exception(STAT_FILE_NOT_OPEN)`), logs it on the exception channel, and
performs no filesystem mutation and no cache or singleton mutation.  (The
file-based `write_persistent_value` has no such gate — see the
counterexample — so only the flush is refused.) -/
theorem flush_busy_refusal (crcS : Nat → Val → Nat) (nanCast step : Nat)
    (sup : Nat → Nat) (s : St) (h : s.cycle ≠ 0) :
    write_persistent_values crcS nanCast step sup s =
      (STAT_FILE_NOT_OPEN,
        { s with exceptions := s.exceptions ++ [STAT_FILE_NOT_OPEN] }) := by
  unfold write_persistent_values
  rw [if_pos h]

/-- C1 witness: instantiating the amended round-trip at a concrete store
(baseline `[9]`, write `42` at index 0, window size 1) discharges every
hypothesis and reads back exactly `42`. -/
theorem write_flush_read_roundtrip_witness :
    0 < ([9] : List Val).length ∧ isNaN32 42 = false ∧ isInf32 42 = false ∧
    (read_persistent_value demoCrc 7 1
      (write_persistent_values demoCrc 7 1 (fun _ => 1)
        (write_persistent_value demoCrc 7 1 (initStore demoCrc [9]) 0 42).2.2).2 0).2.1 =
      some (if floatNe (([9] : List Val).getD 0 0) 42 then 42
            else ([9] : List Val).getD 0 0) :=
  ⟨by decide, by decide, by decide,
    (write_flush_read_roundtrip demoCrc 7 1 (le_refl 1) [9] 0 42 (by decide)
      (by decide) (by decide)).2.2.2.1⟩

/-- C1 counterexample: the claim as stated is false.  With a stale pending
entry (an earlier `write(0, 41)` not yet flushed), a later `write(0, 42)`
followed by a successful flush leaves `read(0) = 41`, not `42`, because
`std::map::insert` does not replace the pending value. -/
theorem roundtrip_counterexample_stale_entry :
    (write_persistent_values demoCrc 7 4 (fun _ => 4)
      (write_persistent_value demoCrc 7 4
        (write_persistent_value demoCrc 7 4 (initStore demoCrc [9]) 0 41).2.2
        0 42).2.2).1 = STAT_OK ∧
    (read_persistent_value demoCrc 7 4
      (write_persistent_values demoCrc 7 4 (fun _ => 4)
        (write_persistent_value demoCrc 7 4
          (write_persistent_value demoCrc 7 4 (initStore demoCrc [9]) 0 41).2.2
          0 42).2.2).2 0).2.1 = some 41 ∧
    some (41 : Val) ≠ some 42 := by decide

set_option maxRecDepth 10000 in
/-- C2: evaluating the flush at the spec's own scenario (baseline slots
0..99, cache entries at 5 and 150, 128-slot windows).  The in-baseline entry
lands and indices 0-4 and 6-99 are preserved, but the new generation holds
only 100 slots: the window that should carry index 150 computes
`io_byte_count = 0` because the count is clamped to the remaining baseline,
so the entry is consumed yet written nowhere and `read(150)` fails. -/
theorem windowed_merge_drops_entry_beyond_baseline :
    (write_persistent_values demoCrc 7 128 (fun _ => 128) mergeState).1 = STAT_OK ∧
    (read_persistent_value demoCrc 7 128
      (write_persistent_values demoCrc 7 128 (fun _ => 128) mergeState).2 5).2.1 =
      some 55 ∧
    (read_persistent_value demoCrc 7 128
      (write_persistent_values demoCrc 7 128 (fun _ => 128) mergeState).2 150).1 =
      STAT_PERSISTENCE_ERROR ∧
    (read_persistent_value demoCrc 7 128
      (write_persistent_values demoCrc 7 128 (fun _ => 128) mergeState).2 150).2.1 =
      none ∧
    ((List.range 100).all fun k => k == 5 ||
      ((read_persistent_value demoCrc 7 128
        (write_persistent_values demoCrc 7 128 (fun _ => 128) mergeState).2 k).2.1 ==
          some (k + 1000))) = true := by decide

/-- C3: evaluating the accessor at a state with a pending entry.  The cache
maps index 0 to the OLD value 41 after `write(0, 42)` decided persistence was
needed: `std::map::insert` keeps the first pending value, so the value later
flushed is the oldest unflushed write, not the most recent one. -/
theorem cache_insert_first_write_wins :
    mapInsert 0 42 [(0, 41)] = [(0, 41)] ∧
    (write_persistent_value demoCrc 7 4
      (write_persistent_value demoCrc 7 4 (initStore demoCrc [9]) 0 41).2.2
      0 42).2.2.nvm.write_cache = [(0, 41)] ∧
    (41 : Val) ≠ 42 := by decide

/-- C4 counterexample: with the machine in motion (`cycle = 1`), the
file-based `write_persistent_value` is NOT refused: it returns `STAT_OK`,
stages a cache entry, and reports nothing on the exception channel. -/
theorem busy_write_not_refused :
    busyState.cycle ≠ 0 ∧
    (write_persistent_value demoCrc 7 4
      { busyState with nvm := { busyState.nvm with write_cache := [] } } 0 7).1 =
      STAT_OK ∧
    (write_persistent_value demoCrc 7 4
      { busyState with nvm := { busyState.nvm with write_cache := [] } }
      0 7).2.2.nvm.write_cache = [(0, 7)] ∧
    (write_persistent_value demoCrc 7 4
      { busyState with nvm := { busyState.nvm with write_cache := [] } }
      0 7).2.2.exceptions = [] := by decide

/-- C4 witness: the amended busy-refusal applied to a concrete in-motion
state: the flush is refused with the Busy report and the state is unchanged
apart from the exception log. -/
theorem flush_busy_refusal_witness :
    busyState.cycle ≠ 0 ∧
    write_persistent_values demoCrc 7 4 (fun _ => 4) busyState =
      (STAT_FILE_NOT_OPEN,
        { busyState with exceptions := busyState.exceptions ++ [STAT_FILE_NOT_OPEN] }) :=
  ⟨by decide, flush_busy_refusal demoCrc 7 4 (fun _ => 4) busyState (by decide)⟩

/-- C5: on an empty store (no generation file exists) `active_file_index`
returns 3 — `PERSISTENCE_FILENAME_CNT`, one past the last slot — not the slot
0 its own comment promises; `prepare_persistence_file` consequently fails to
open `filenames[3]` and errors out instead of treating the store as empty at
slot 0. -/
theorem active_file_index_empty_store :
    active_file_index { f0 := none, f1 := none, f2 := none } = 3 ∧ (3 : Nat) ≠ 0 ∧
    (prepare_persistence_file demoCrc 7 4
      { fs := { f0 := none, f1 := none, f2 := none },
        nvm := { file_index := 0, openSlot := none, pos := 0, write_cache := [],
                 write_failures := 0, last_write_systick := 0 },
        cycle := 0, exceptions := [] }).1 = STAT_PERSISTENCE_ERROR := by decide

/-- C6 witness: the corruption theorem applied to a concrete store whose only
generation file carries trailer 999 over content summing to 30. -/
theorem prepare_rejects_corrupt_file_witness :
    corruptState.nvm.openSlot = none ∧
    corruptState.fs.get (active_file_index corruptState.fs) = some ([10, 20] ++ [999]) ∧
    [10, 20].foldl demoCrc 0 ≠ 999 ∧
    prepare_persistence_file demoCrc 7 4 corruptState =
      (STAT_PERSISTENCE_ERROR,
        { corruptState with
            fs := corruptState.fs.set (active_file_index corruptState.fs) none,
            nvm := { corruptState.nvm with openSlot := none, file_index := 0, pos := 0 } }) :=
  ⟨rfl, by decide, by decide,
    prepare_rejects_corrupt_file demoCrc 7 4 (by decide) corruptState [10, 20] 999
      rfl (by decide) (by decide)⟩

/-- C7 witness: a concrete failing attempt (flush refused while in motion):
the counter increments from 0 to 1 and the cache is retained. -/
theorem callback_failure_budget_witness :
    busyState.nvm.write_cache ≠ [] ∧
    (0 : Nat) ≤ 5 - busyState.nvm.last_write_systick ∧
    (write_persistent_values demoCrc 7 4 (fun _ => 4) busyState).1 ≠ STAT_OK ∧
    busyState.nvm.write_failures + 1 < 3 ∧
    (write_persistent_values_callback demoCrc 7 4 (fun _ => 4) 0 3 5
      busyState).2.nvm.write_failures = busyState.nvm.write_failures + 1 ∧
    (write_persistent_values_callback demoCrc 7 4 (fun _ => 4) 0 3 5
      busyState).2.nvm.write_cache = busyState.nvm.write_cache :=
  ⟨by decide, by decide, by decide, by decide,
    (((callback_failure_budget demoCrc 7 4 (fun _ => 4) 0 3 5 busyState (by decide)
        (by decide)).2.2.2 (by decide)).2 (by decide)).2,
    (((callback_failure_budget demoCrc 7 4 (fun _ => 4) 0 3 5 busyState (by decide)
        (by decide)).2.2.2 (by decide)).2 (by decide)).1⟩

/-- C8 witness: after a concrete failed flush below the failure budget the
pending cache is exactly what it was before the attempt. -/
theorem flush_cache_frame_witness :
    (write_persistent_values demoCrc 7 4 (fun _ => 4) busyState).1 ≠ STAT_OK ∧
    busyState.nvm.write_failures + 1 < 3 ∧
    (write_persistent_values_callback demoCrc 7 4 (fun _ => 4) 0 3 5
      busyState).2.nvm.write_cache = busyState.nvm.write_cache :=
  ⟨by decide, by decide,
    (flush_cache_frame demoCrc 7 4 (fun _ => 4) 0 3 5 busyState (by decide)
      (by decide)).2⟩

/-- C9 witness: on an empty disk the read of the current value fails, yet the
write returns `STAT_OK`, hands back the intended value, and stages the entry
through `std::map::insert`. -/
theorem write_persistent_value_always_ok_witness :
    (read_persistent_value demoCrc 7 4 busyState 0).1 ≠ STAT_OK ∧
    (write_persistent_value demoCrc 7 4 busyState 0 7).1 = STAT_OK ∧
    (write_persistent_value demoCrc 7 4 busyState 0 7).2.1 = 7 ∧
    (write_persistent_value demoCrc 7 4 busyState 0 7).2.2.nvm.write_cache =
      mapInsert 0 7 busyState.nvm.write_cache :=
  ⟨by decide,
    (write_persistent_value_always_ok demoCrc 7 4 busyState 0 7).1,
    (write_persistent_value_always_ok demoCrc 7 4 busyState 0 7).2.1,
    (write_persistent_value_always_ok demoCrc 7 4 busyState 0 7).2.2 (by decide)⟩

/-- C10: a baseline read whose delivered byte count is zero (the `f_read`
status is ignored by the code) does not abort the flush: the window is
zero-filled and still written, the flush returns `STAT_OK`, and the new
generation validates — with a slot that previously read 10 now reading 0. -/
theorem short_read_flush_zero_fills :
    (read_persistent_value demoCrc 7 8 shortReadState 0).2.1 = some 10 ∧
    (write_persistent_values demoCrc 7 8 (shortFirstRead 8) shortReadState).1 =
      STAT_OK ∧
    (read_persistent_value demoCrc 7 8
      (write_persistent_values demoCrc 7 8 (shortFirstRead 8) shortReadState).2 0).2.1 =
      some 0 ∧
    some (0 : Val) ≠ some 10 := by decide
